import Mathlib

/-!
Verification of the plant-diagnosis engine
(`src/diagnosis-engine.js` of the Youtube-mp4-mp3-downloader repository,
whose actual content is the plant_test project).

Shallow embedding conventions:
* JavaScript strings are embedded as `List Char`; string literals are
  written as `"...".data`.
* JavaScript numbers are embedded as `ℚ` (all scores in the engine are
  exact decimal fractions combined by `+`, `*`, `/`, `min`, `max`, so the
  float computations are faithfully mirrored by exact rational arithmetic).
* The plant catalog (`data/plants.json`) and the configuration
  (`config.json`) are external inputs of the engine (spec section 6), so the
  embedding is parameterised by them.
* The fuse.js fuzzy-search index is third-party code that is not part of
  the repository; it is modelled as an opaque-to-the-proofs function
  parameter returning the scored search results (spec section 4.1, step 3).
-/

namespace PlantHelper

/-- whitespace test covering the ASCII white space characters matched by
the JavaScript `\s` class and `String.prototype.trim` (space, tab, line
feed, carriage return, vertical tab, form feed). -/
def isWs (c : Char) : Bool :=
  c == ' ' || c == '\t' || c == '\n' || c == '\r' || c == '\x0b' || c == '\x0c'

/-- drop the leading whitespace of a character list. -/
def dropWs : List Char → List Char
  | [] => []
  | c :: t => if isWs c then dropWs t else c :: t

theorem dropWs_length (l : List Char) : (dropWs l).length ≤ l.length := by
  induction l with
  | nil => simp [dropWs]
  | cons c t ih =>
    simp only [dropWs]
    split
    · exact Nat.le_succ_of_le ih
    · exact Nat.le_refl _

/-- embedding of `String.prototype.trim`: drop whitespace at both ends. -/
def jsTrim (s : List Char) : List Char :=
  (dropWs ((dropWs s).reverse)).reverse

/-- embedding of `String.prototype.toLowerCase` (ASCII range, which covers
every string the engine compares). -/
def lowerStr (s : List Char) : List Char :=
  s.map Char.toLower

/-- Boolean test that the first list is an initial segment of the second. -/
def isPrefOf : List Char → List Char → Bool
  | [], _ => true
  | _ :: _, [] => false
  | c :: cs, d :: ds => c == d && isPrefOf cs ds

/-- embedding of `String.prototype.includes`: `strIncludes hay needle` is
true when `needle` occurs contiguously inside `hay`. -/
def strIncludes : List Char → List Char → Bool
  | [], needle => needle.isEmpty
  | c :: t, needle => isPrefOf needle (c :: t) || strIncludes t needle

/-- worker for `splitWs`; accumulates the current word (reversed) and a
flag telling whether the scan is inside a whitespace run whose token has
already been emitted (so that a run of several whitespace characters acts
as one separator). -/
def splitWsAux : List Char → List Char → Bool → List (List Char)
  | [], acc, inRun => if inRun then [[]] else [acc.reverse]
  | c :: t, acc, inRun =>
    if isWs c then
      if inRun then splitWsAux t [] true
      else acc.reverse :: splitWsAux t [] true
    else splitWsAux t (c :: acc) false

/-- embedding of `text.split(/\s+/)`: split at maximal whitespace runs; a
leading (resp. trailing) run contributes a leading (resp. trailing) empty
token, exactly as the JavaScript regular-expression split does. -/
def splitWs (s : List Char) : List (List Char) :=
  splitWsAux s [] false

/-- worker for `splitSp`. -/
def splitSpAux : List Char → List Char → List (List Char)
  | [], acc => [acc.reverse]
  | c :: t, acc =>
    if c == ' ' then acc.reverse :: splitSpAux t []
    else splitSpAux t (c :: acc)

/-- embedding of `text.split(' ')`: split at every single space character
(consecutive spaces produce empty tokens, as in JavaScript). -/
def splitSp (s : List Char) : List (List Char) :=
  splitSpAux s []

/-- embedding of `Array.prototype.join(sep)` for an array of strings. -/
def joinSep (sep : List Char) : List (List Char) → List Char
  | [] => []
  | [x] => x
  | x :: y :: t => x ++ sep ++ joinSep sep (y :: t)

/-! The data model (spec section 3), translated from the JSON shapes the
engine reads and the object literals it builds.  A JavaScript object field
that can be absent is embedded as an `Option`; a field accessed through
`x.f || []` is embedded as a plain list with `[]` for absence. -/

/-- a cause entry of a plant record: `id`, human readable `label`, and the
trigger `keywords` (`cause.keywords || []` in the engine). -/
structure Cause where
  id : List Char
  label : List Char
  keywords : List (List Char)
deriving DecidableEq

/-- a record of the plant catalog.  `solutions` is the JSON object mapping
cause ids to action lists, embedded as an association list in key order. -/
structure PlantRecord where
  id : List Char
  name : List Char
  aliases : List (List Char)
  symptoms : List (List Char)
  causes : List Cause
  solutions : List (List Char × List (List Char))
  eco_tip : List Char
deriving DecidableEq

/-- a symptom match produced by extraction.  The enhanced-detection pass
builds objects without a `matchType` field; those are embedded with the
empty string. -/
structure SymptomMatch where
  symptom : List Char
  source : List Char
  weight : ℚ
  matchType : List Char
deriving DecidableEq

/-- one ranked diagnosis of the result. -/
structure Diagnosis where
  cause : Cause
  confidence : ℚ
  why : List Char
  actions : List (List Char)
  eco_tip : List Char
deriving DecidableEq

/-- the value returned by `diagnose`.  The empty-input branch of the code
builds an object without `originalInput`, `detectedPlant` and
`detectionMethod`, so those three fields are embedded as `Option`s. -/
structure DiagnosisResult where
  plantName : List Char
  plantMatchScore : ℚ
  diagnoses : List Diagnosis
  timestamp : List Char
  originalInput : Option (List Char)
  detectedPlant : Option (List Char)
  detectionMethod : Option (List Char)
deriving DecidableEq

/-- the configuration record (spec section 6): the `diagnosis` block of
`config.json` together with `ui.maxInputLength`. -/
structure Config where
  minConfidenceThreshold : ℚ
  maxDiagnoses : ℕ
  plantMatchWeight : ℚ
  symptomMatchWeight : ℚ
  fuzzyThreshold : ℚ
  maxInputLength : ℕ
deriving DecidableEq

/-- the defaults the engine falls back to when `config.json` is missing. -/
def defaultConfig : Config :=
  { minConfidenceThreshold := 0.3
    maxDiagnoses := 3
    plantMatchWeight := 0.4
    symptomMatchWeight := 0.6
    fuzzyThreshold := 0.6
    maxInputLength := 500 }

/-- the engine state after construction: the loaded plant catalog, the
configuration, and the fuse.js index built over the catalog, modelled as
the function taking a query to its scored result list (best hit first,
`score` being the fuse.js distance). -/
structure Engine where
  plants : List PlantRecord
  config : Config
  fuse : List Char → List (PlantRecord × ℚ)

/-- the generic fallback record: `this.plants.find(p => p.id === 'generic')`.
Spec section 6 requires the catalog to contain such a record (its absence is
fatal at startup), so the embedding totalises the lookup with an inert
default record. -/
def genericRecord (plants : List PlantRecord) : PlantRecord :=
  (plants.find? (fun p => p.id == "generic".data)).getD
    { id := [], name := [], aliases := [], symptoms := [], causes := [],
      solutions := [], eco_tip := [] }

/-- the fixed semantic vocabulary sets of `getSemanticMatches` (the group
names play no role in the computation, only the count of matching groups,
so the embedding keeps the keyword lists in object-literal order). -/
def semanticGroups : List (List (List Char)) :=
  [ ["yellow".data, "brown".data, "black".data, "white".data, "pale".data,
     "faded".data, "discolored".data],
    ["crispy".data, "mushy".data, "soft".data, "hard".data, "rough".data,
     "smooth".data, "sticky".data],
    ["drooping".data, "wilting".data, "curled".data, "twisted".data,
     "deformed".data, "stunted".data],
    ["not growing".data, "slow growth".data, "small".data, "tiny".data,
     "weak".data, "thin".data],
    ["dry".data, "wet".data, "soggy".data, "thirsty".data, "parched".data,
     "waterlogged".data],
    ["pale".data, "stretching".data, "leggy".data, "spindly".data,
     "weak".data, "thin".data],
    ["holes".data, "spots".data, "bugs".data, "webs".data, "sticky".data,
     "powdery".data] ]

/-- embedding of `getSemanticMatches(symptom, inputText)`: the number of
semantic groups containing both a keyword occurring in the symptom phrase
and a keyword occurring in the input text. -/
def getSemanticMatches (symptom inputText : List Char) : ℕ :=
  (semanticGroups.filter (fun g =>
    g.any (fun k => strIncludes symptom k) &&
    g.any (fun k => strIncludes inputText k))).length

/-- the `+0.3` accumulation loop of `extractSymptoms`: for every symptom
word of length `> 2` and every input word, add `0.3` when either contains
the other (one addition per pair, exactly as the nested loops do). -/
def partPairScore (symptomWords inputWords : List (List Char)) : ℚ :=
  symptomWords.foldl (fun acc sw =>
    if sw.length > 2 then
      inputWords.foldl (fun acc2 iw =>
        if strIncludes iw sw || strIncludes sw iw then acc2 + 0.3 else acc2)
        acc
    else acc) 0

/-- the `+0.5` accumulation loop of `extractSymptoms`: for every symptom
word of length `> 3` occurring in the full input text, add `0.5`. -/
def substrScore (text : List Char) (symptomWords : List (List Char)) : ℚ :=
  symptomWords.foldl (fun acc sw =>
    if sw.length > 3 && strIncludes text sw then acc + 0.5 else acc) 0

/-- the accumulated match score of a symptom candidate on the non-exact
branch of `extractSymptoms` (partial pairs, substrings, then
`semanticMatches * 0.4`), before the clamp to `1.0`. -/
def rawMatchScore (text symptomLower : List Char) : ℚ :=
  partPairScore (splitSp symptomLower) (splitSp text)
    + substrScore text (splitSp symptomLower)
    + (getSemanticMatches symptomLower text : ℚ) * 0.4

/-- the final value of the `matchType` variable on the non-exact branch:
the loops assign `partial`, then `substring`, then `semantic`, so the last
non-empty stage wins. -/
def matchTypeOf (text symptomLower : List Char) : List Char :=
  if getSemanticMatches symptomLower text > 0 then "semantic".data
  else if (splitSp symptomLower).any
      (fun sw => sw.length > 3 && strIncludes text sw) then "substring".data
  else if (splitSp symptomLower).any (fun sw =>
      sw.length > 2 && (splitSp text).any
        (fun iw => strIncludes iw sw || strIncludes sw iw)) then
    "partial".data
  else []

/-- stable descending insertion by a rational key: the element is placed
before the first strictly smaller key, so elements with equal keys keep
their original relative order — the behaviour of the (stable)
`Array.prototype.sort` with comparator `(a, b) => key(b) - key(a)`. -/
def insertByDesc {α : Type} (key : α → ℚ) (x : α) : List α → List α
  | [] => [x]
  | y :: t => if key y < key x then x :: y :: t else y :: insertByDesc key x t

/-- stable sort by descending rational key (insertion sort). -/
def sortByDesc {α : Type} (key : α → ℚ) (l : List α) : List α :=
  l.foldl (fun acc x => insertByDesc key x acc) []

/-- the duplicate-removal loop of `extractSymptoms`: keep the first
occurrence of every symptom text, tracked by the `seenSymptoms` set. -/
def dedupBySymptom : List SymptomMatch → List (List Char) → List SymptomMatch
  | [], _ => []
  | m :: t, seen =>
    if m.symptom ∈ seen then dedupBySymptom t seen
    else m :: dedupBySymptom t (m.symptom :: seen)

/-- the candidate list of `extractSymptoms` before sorting, deduplication
and truncation: every symptom of the detected plant followed by every
symptom of the generic record, scored and kept when the score exceeds
`0.2`, with the weight clamped to `1.0`. -/
def extractCandidates (plants : List PlantRecord) (inputText : List Char)
    (plant : PlantRecord) : List SymptomMatch :=
  let text := lowerStr inputText
  let plantSymptoms := plant.symptoms
  let allSymptoms := plantSymptoms ++ (genericRecord plants).symptoms
  allSymptoms.filterMap (fun symptom =>
    let symptomLower := lowerStr symptom
    let matchScore : ℚ :=
      if strIncludes text symptomLower then 1.0
      else rawMatchScore text symptomLower
    let matchType : List Char :=
      if strIncludes text symptomLower then "exact".data
      else matchTypeOf text symptomLower
    if matchScore > 0.2 then
      some { symptom := symptom,
             source := if symptom ∈ plantSymptoms then "plant_specific".data
                       else "generic".data,
             weight := min matchScore 1.0,
             matchType := matchType }
    else none)

/-- embedding of `extractSymptoms(inputText, plant)`: score the candidates,
sort by weight descending, deduplicate by symptom text, and keep the top
10. -/
def extractSymptoms (plants : List PlantRecord) (inputText : List Char)
    (plant : PlantRecord) : List SymptomMatch :=
  (dedupBySymptom
    (sortByDesc (fun m => m.weight) (extractCandidates plants inputText plant))
    []).take 10

/-- embedding of `calculateSymptomScore(symptoms)`: total weight divided by
`max(length, 3)`, clamped to `1.0`; `0` for the empty list. -/
def calculateSymptomScore (symptoms : List SymptomMatch) : ℚ :=
  if symptoms.length = 0 then 0
  else min ((symptoms.map (fun s => s.weight)).sum
      / (max symptoms.length 3 : ℕ)) 1.0

/-- embedding of `calculateEnhancedConfidence`: keyword ratio and the two
averaged symptom scores combined with the configured weights, clamped to
`1.0`, then floored at `0.3`. -/
def calculateEnhancedConfidence (cfg : Config) (matchedKeywords : List (List Char))
    (totalKeywords : ℕ) (symptoms enhancedSymptoms : List SymptomMatch) : ℚ :=
  let keywordScore : ℚ := (matchedKeywords.length : ℚ) / (max totalKeywords 1 : ℕ)
  let symptomScore := calculateSymptomScore symptoms
  let enhancedScore := calculateSymptomScore enhancedSymptoms
  let combinedScore :=
    min (cfg.plantMatchWeight * keywordScore
      + cfg.symptomMatchWeight * (symptomScore + enhancedScore) / 2) 1.0
  max combinedScore 0.3

/-- embedding of `enhancedSymptomDetection(inputText, plant)`: re-scan the
plant's own symptom list for direct inclusion (weight `1.0`) or a word of
length `> 2` contained in the input (weight `0.7`).  The objects the code
builds carry no `matchType` field, embedded as the empty string. -/
def enhancedSymptomDetection (inputText : List Char) (plant : PlantRecord) :
    List SymptomMatch :=
  plant.symptoms.filterMap (fun symptom =>
    let symptomLower := lowerStr symptom
    if strIncludes inputText symptomLower then
      some { symptom := symptom, source := "enhanced_direct".data,
             weight := 1.0, matchType := [] }
    else if (splitSp symptomLower).any (fun w =>
        w.length > 2 && strIncludes inputText w) then
      some { symptom := symptom, source := "enhanced_partial".data,
             weight := 0.7, matchType := [] }
    else none)

/-- duplicate removal preserving first occurrences, the embedding of
`[...new Set([...matchedKeywords, ...partialMatches])]` (a JavaScript Set
iterates in insertion order). -/
def dedupFirstAux : List (List Char) → List (List Char) → List (List Char)
  | [], _ => []
  | x :: t, seen =>
    if x ∈ seen then dedupFirstAux t seen
    else x :: dedupFirstAux t (x :: seen)

/-- duplicate removal preserving first occurrences, starting from the empty
seen set. -/
def dedupFirst (l : List (List Char)) : List (List Char) :=
  dedupFirstAux l []

/-- the fixed four-item action checklist used when a plant has neither a
solution entry for the cause nor a `watering_issues` entry. -/
def genericFallbackActions : List (List Char) :=
  [ "Check soil moisture with your finger".data,
    "Ensure proper drainage".data,
    "Adjust watering schedule".data,
    "Monitor plant response".data ]

/-- lookup in the `solutions` association list (JavaScript object property
access, `undefined` for a missing key). -/
def lookupSol (sols : List (List Char × List (List Char)))
    (key : List Char) : Option (List (List Char)) :=
  (sols.find? (fun pr => pr.1 == key)).map (fun pr => pr.2)

/-- embedding of the action selection
`plant.solutions[cause.id] || plant.solutions['watering_issues'] || [...]`
(an array is always truthy in JavaScript, so only a missing key falls
through). -/
def actionsFor (plant : PlantRecord) (causeId : List Char) : List (List Char) :=
  match lookupSol plant.solutions causeId with
  | some a => a
  | none =>
    match lookupSol plant.solutions "watering_issues".data with
    | some a => a
    | none => genericFallbackActions

/-- embedding of `getCauseLabel(causeId)`. -/
def getCauseLabel (causeId : List Char) : List Char :=
  if causeId = "underwatering".data then "Underwatering & Dehydration".data
  else if causeId = "overwatering".data then "Overwatering & Root Rot".data
  else if causeId = "light_issues".data then
    "Light Problems & Photosynthesis Issues".data
  else if causeId = "pests".data then "Pest Infestation & Disease".data
  else "Plant Health Issue".data

/-- the four fixed last-resort keyword sets of `detectGenericCause`, in
object-literal evaluation order. -/
def lastResortPatterns : List (List Char × List (List Char)) :=
  [ ("underwatering".data,
     ["dry".data, "crispy".data, "brown".data, "wilting".data,
      "drooping".data, "thirsty".data]),
    ("overwatering".data,
     ["yellow".data, "mushy".data, "wet".data, "soggy".data,
      "dropping".data, "falling".data]),
    ("light_issues".data,
     ["pale".data, "stretching".data, "weak".data, "small".data,
      "not growing".data, "leggy".data]),
    ("pests".data,
     ["bugs".data, "holes".data, "spots".data, "webs".data,
      "tiny".data, "insects".data]) ]

/-- embedding of `detectGenericCause(inputText, plant)`: the first pattern
set with a keyword contained in the input yields a synthetic cause; `null`
(here `none`) when no set matches.  The `plant` argument is unused by the
source function and kept for signature fidelity. -/
def detectGenericCause (inputText : List Char) (_plant : PlantRecord) :
    Option Cause :=
  (lastResortPatterns.find? (fun pr =>
    (pr.2.filter (fun k => strIncludes inputText k)).length > 0)).map
    (fun pr => { id := pr.1, label := getCauseLabel pr.1, keywords := pr.2 })

/-- embedding of `generateEnhancedWhyExplanation`: up to 3 matched keywords
and up to 2 enhanced symptom names, or the generic fallback sentence. -/
def generateEnhancedWhyExplanation (matchedKeywords : List (List Char))
    (cause : Cause) (_inputText : List Char)
    (enhancedSymptoms : List SymptomMatch) : List Char :=
  if matchedKeywords.length = 0 ∧ enhancedSymptoms.length = 0 then
    "Based on general plant care patterns, this could be a ".data
      ++ lowerStr cause.label ++ " issue.".data
  else
    let keywordList := joinSep "\x27, \x27".data (matchedKeywords.take 3)
    let symptomList := joinSep "\x27, \x27".data
      ((enhancedSymptoms.take 2).map (fun s => s.symptom))
    let explanation := "Detected keywords: \x27".data ++ keywordList
      ++ "\x27".data
    let explanation :=
      if symptomList.isEmpty then explanation
      else explanation ++ " and symptoms: \x27".data ++ symptomList
        ++ "\x27".data
    explanation ++ " suggesting ".data ++ lowerStr cause.label ++ ".".data

/-- embedding of `generateGenericWhyExplanation`: names the common
descriptor words found in the input, or falls back to a generic sentence. -/
def generateGenericWhyExplanation (inputText : List Char) (cause : Cause) :
    List Char :=
  let commonWords := ["yellow".data, "brown".data, "dry".data, "wet".data,
    "pale".data, "small".data, "weak".data]
  let foundWords := commonWords.filter (fun w => strIncludes inputText w)
  if foundWords.length > 0 then
    "Detected common symptoms like \x27".data
      ++ joinSep "\x27, \x27".data foundWords
      ++ "\x27 suggesting ".data ++ lowerStr cause.label ++ ".".data
  else
    "Based on the plant type and common issues, this appears to be a ".data
      ++ lowerStr cause.label ++ " problem.".data

/-- the fixed zero-symptom sentinel diagnosis returned by
`generateDiagnoses` when neither symptom list has an entry.  The source
cause literal has no `keywords` field, embedded as `[]`. -/
def unclearDiagnosis : Diagnosis :=
  { cause := { id := "no_symptoms".data, label := "Unclear Symptoms".data,
               keywords := [] },
    confidence := 0.2,
    why := ("I couldn\x27t detect specific symptoms in your description. "
      ++ "Try mentioning specific issues like \x27yellow leaves\x27, "
      ++ "\x27drooping\x27, or \x27brown spots\x27.").data,
    actions :=
      [ "Provide more specific details about what you\x27re seeing".data,
        "Mention the plant name if you know it".data,
        "Describe the symptoms more clearly".data,
        "Include information about watering, light, and recent changes".data ],
    eco_tip := ("When in doubt, less water is usually better than more "
      ++ "water for most plants!").data }

/-- the body of the per-cause loop of `generateDiagnoses`: keyword and
partial keyword matching, the confidence computation, and the threshold
acceptance test; `none` when the cause is skipped. -/
def diagnosisFor (cfg : Config) (plant : PlantRecord)
    (symptoms enhancedSymptoms : List SymptomMatch)
    (inputLower inputText : List Char) (cause : Cause) : Option Diagnosis :=
  let causeKeywords := cause.keywords
  let matchedKeywords := causeKeywords.filter (fun keyword =>
    strIncludes inputLower (lowerStr keyword))
  let partMatches := causeKeywords.filter (fun keyword =>
    (splitSp (lowerStr keyword)).any (fun word =>
      word.length > 2 && strIncludes inputLower word))
  let allMatches := dedupFirst (matchedKeywords ++ partMatches)
  if allMatches.length > 0 ∨ plant.id = "generic".data then
    let confidence := calculateEnhancedConfidence cfg allMatches
      causeKeywords.length symptoms enhancedSymptoms
    if cfg.minConfidenceThreshold ≤ confidence then
      some { cause := cause, confidence := confidence,
             why := generateEnhancedWhyExplanation allMatches cause inputText
               enhancedSymptoms,
             actions := actionsFor plant cause.id,
             eco_tip := plant.eco_tip }
    else none
  else none

/-- the synthetic last-resort diagnosis pushed when the per-cause loop
produced nothing and a last-resort pattern matched. -/
def lastResortDiagnosis (plant : PlantRecord) (inputLower : List Char)
    (genericCause : Cause) : Diagnosis :=
  { cause := genericCause, confidence := 0.4,
    why := generateGenericWhyExplanation inputLower genericCause,
    actions := actionsFor plant genericCause.id,
    eco_tip := plant.eco_tip }

/-- embedding of `generateDiagnoses(plant, symptoms, inputText)`. -/
def generateDiagnoses (cfg : Config) (plant : PlantRecord)
    (symptoms : List SymptomMatch) (inputText : List Char) : List Diagnosis :=
  let inputLower := lowerStr inputText
  let enhancedSymptoms := enhancedSymptomDetection inputLower plant
  if symptoms.isEmpty && enhancedSymptoms.isEmpty then [unclearDiagnosis]
  else
    let base := plant.causes.filterMap
      (diagnosisFor cfg plant symptoms enhancedSymptoms inputLower inputText)
    let withLastResort :=
      if base.isEmpty then
        match detectGenericCause inputLower plant with
        | some genericCause => [lastResortDiagnosis plant inputLower genericCause]
        | none => base
      else base
    (sortByDesc (fun d => d.confidence) withLastResort).take cfg.maxDiagnoses

/-- the exact-name condition of `detectPlant`: every word of the
lower-cased plant name equals, or is contained in, some input word (plus
the vacuous `plantWords.length > 0` check the source performs). -/
def nameCond (words : List (List Char)) (p : PlantRecord) : Bool :=
  let plantWords := splitWs (lowerStr p.name)
  plantWords.all (fun plantWord =>
    words.any (fun word => word == plantWord || strIncludes word plantWord))
    && decide (plantWords.length > 0)

/-- the alias condition of `detectPlant` for a single alias: length `> 2`,
contained in the text, and every alias word equal to or contained in some
input word. -/
def aliasCond (text : List Char) (words : List (List Char))
    (aliasStr : List Char) : Bool :=
  let aliasLower := lowerStr aliasStr
  decide (aliasLower.length > 2) && strIncludes text aliasLower &&
    (splitWs aliasLower).all (fun aliasWord =>
      words.any (fun word => word == aliasWord || strIncludes word aliasWord))

/-- the result record of `detectPlant`. -/
structure PlantDetection where
  plant : PlantRecord
  score : ℚ
  method : List Char
deriving DecidableEq

/-- the generic fallback detection (step 4 of spec section 4.1). -/
def genericFallbackDetection (e : Engine) : PlantDetection :=
  { plant := genericRecord e.plants, score := 0.1,
    method := "generic_fallback".data }

/-- embedding of `detectPlant(inputText)`: exact name match, then alias
match, then fuzzy match through the fuse.js results, then the generic
fallback — each stage an ordered first-match scan of the catalog. -/
def detectPlant (e : Engine) (inputText : List Char) : PlantDetection :=
  let text := lowerStr inputText
  let words := splitWs text
  match e.plants.find? (nameCond words) with
  | some plant => { plant := plant, score := 1.0,
                    method := "plant_name_match".data }
  | none =>
    match e.plants.find? (fun p => p.aliases.any (aliasCond text words)) with
    | some plant => { plant := plant, score := 0.9,
                      method := "alias_match".data }
    | none =>
      match e.fuse inputText with
      | r :: _ =>
        if r.2 < e.config.fuzzyThreshold then
          { plant := r.1, score := 1 - r.2, method := "fuzzy_match".data }
        else genericFallbackDetection e
      | [] => genericFallbackDetection e

/-- the fixed diagnosis of the empty-input short circuit of `diagnose`. -/
def emptyInputDiagnosis : Diagnosis :=
  { cause := { id := "empty_input".data, label := "No Input Provided".data,
               keywords := [] },
    confidence := 0,
    why := "Please provide a description of your plant\x27s problem.".data,
    actions :=
      [ "Describe what you\x27re seeing (yellow leaves, drooping, etc.)".data,
        "Mention the plant name if you know it".data,
        "Include details about watering and light conditions".data,
        ("Describe any recent changes to the plant\x27s "
          ++ "environment").data ],
    eco_tip := ("The more details you provide, the better I can help "
      ++ "diagnose the issue!").data }

/-- embedding of `diagnose(inputText)`.  `now` models the
`new Date().toISOString()` timestamp, the single impure read of the
function. -/
def diagnose (e : Engine) (now : List Char) (inputText : List Char) :
    DiagnosisResult :=
  if (jsTrim inputText).isEmpty then
    { plantName := "generic".data, plantMatchScore := 0,
      diagnoses := [emptyInputDiagnosis], timestamp := now,
      originalInput := none, detectedPlant := none, detectionMethod := none }
  else
    let truncatedInput :=
      if inputText.length > e.config.maxInputLength then
        inputText.take e.config.maxInputLength ++ "...".data
      else inputText
    let plantDetection := detectPlant e truncatedInput
    let symptoms := extractSymptoms e.plants truncatedInput plantDetection.plant
    let diagnoses := generateDiagnoses e.config plantDetection.plant symptoms
      truncatedInput
    { plantName := plantDetection.plant.name,
      plantMatchScore := plantDetection.score,
      diagnoses := diagnoses, timestamp := now,
      originalInput := some truncatedInput,
      detectedPlant := some plantDetection.plant.id,
      detectionMethod := some plantDetection.method }

/-! Concrete fixtures used by witnesses and counterexamples. -/

/-- a minimal generic record with no symptoms and no causes. -/
def wPlant : PlantRecord :=
  { id := "generic".data, name := "generic".data, aliases := [],
    symptoms := [], causes := [], solutions := [], eco_tip := [] }

/-- a minimal engine whose catalog holds only `wPlant` and whose fuzzy
index returns no hits. -/
def wEngine : Engine :=
  { plants := [wPlant], config := defaultConfig, fuse := fun _ => [] }

/-! Helper lemmas about blank input. -/

theorem dropWs_eq_nil_of_all {s : List Char} (h : s.all isWs = true) :
    dropWs s = [] := by
  induction s with
  | nil => rfl
  | cons c t ih =>
    simp only [List.all_cons, Bool.and_eq_true] at h
    simp [dropWs, h.1, ih h.2]

theorem jsTrim_eq_nil_of_all {s : List Char} (h : s.all isWs = true) :
    jsTrim s = [] := by
  simp [jsTrim, dropWs_eq_nil_of_all h, dropWs]

/-- claim C3: for the empty string and for every whitespace-only input,
`diagnose` short-circuits and returns the fixed no-input DiagnosisResult,
whose single diagnosis has cause id `empty_input` and confidence `0`. -/
theorem diagnose_blank_input (e : Engine) (now s : List Char)
    (h : s.all isWs = true) :
    diagnose e now s =
      { plantName := "generic".data, plantMatchScore := 0,
        diagnoses := [emptyInputDiagnosis], timestamp := now,
        originalInput := none, detectedPlant := none,
        detectionMethod := none }
    ∧ emptyInputDiagnosis.cause.id = "empty_input".data
    ∧ emptyInputDiagnosis.confidence = 0 := by
  refine ⟨?_, rfl, rfl⟩
  simp [diagnose, jsTrim_eq_nil_of_all h]

/-- witness for C3 at the whitespace-only input of two spaces. -/
theorem diagnose_blank_input_witness :
    diagnose wEngine [] "  ".data =
      { plantName := "generic".data, plantMatchScore := 0,
        diagnoses := [emptyInputDiagnosis], timestamp := [],
        originalInput := none, detectedPlant := none,
        detectionMethod := none } :=
  (diagnose_blank_input wEngine [] "  ".data (by decide)).1

/-- claim C9: `diagnose` is a pure function of its input — two calls with
the same engine state (catalog, configuration, fuzzy index) and the same
input agree on every field except `timestamp`, whatever the two clock
readings are. -/
theorem diagnose_deterministic (e : Engine) (t1 t2 s : List Char) :
    (diagnose e t1 s).plantName = (diagnose e t2 s).plantName
    ∧ (diagnose e t1 s).plantMatchScore = (diagnose e t2 s).plantMatchScore
    ∧ (diagnose e t1 s).diagnoses = (diagnose e t2 s).diagnoses
    ∧ (diagnose e t1 s).originalInput = (diagnose e t2 s).originalInput
    ∧ (diagnose e t1 s).detectedPlant = (diagnose e t2 s).detectedPlant
    ∧ (diagnose e t1 s).detectionMethod = (diagnose e t2 s).detectionMethod := by
  by_cases h : (jsTrim s).isEmpty = true <;>
    simp [diagnose, h]

/-- claim C10: blank input produces the literal plant name `generic`,
match score `0` and none of the three optional fields, while non-blank
input always carries all three. -/
theorem diagnose_optional_fields (e : Engine) (now s : List Char) :
    ((jsTrim s).isEmpty = true →
      (diagnose e now s).plantName = "generic".data
      ∧ (diagnose e now s).plantMatchScore = 0
      ∧ (diagnose e now s).originalInput = none
      ∧ (diagnose e now s).detectedPlant = none
      ∧ (diagnose e now s).detectionMethod = none)
    ∧ ((jsTrim s).isEmpty = false →
      ((diagnose e now s).originalInput).isSome = true
      ∧ ((diagnose e now s).detectedPlant).isSome = true
      ∧ ((diagnose e now s).detectionMethod).isSome = true) := by
  constructor <;> intro h <;> simp [diagnose, h]

/-- witness for C10 at the empty input and at the non-blank input `hi`. -/
theorem diagnose_optional_fields_witness :
    ((diagnose wEngine [] [] ).plantName = "generic".data
      ∧ (diagnose wEngine [] [] ).plantMatchScore = 0
      ∧ (diagnose wEngine [] [] ).originalInput = none
      ∧ (diagnose wEngine [] [] ).detectedPlant = none
      ∧ (diagnose wEngine [] [] ).detectionMethod = none)
    ∧ (((diagnose wEngine [] "hi".data).originalInput).isSome = true
      ∧ ((diagnose wEngine [] "hi".data).detectedPlant).isSome = true
      ∧ ((diagnose wEngine [] "hi".data).detectionMethod).isSome = true) :=
  ⟨(diagnose_optional_fields wEngine [] []).1 (by decide),
   (diagnose_optional_fields wEngine [] "hi".data).2 (by decide)⟩

/-! Lemmas about the stable descending sort. -/

theorem mem_insertByDesc {α : Type} (key : α → ℚ) (d x : α) (l : List α) :
    x ∈ insertByDesc key d l ↔ x = d ∨ x ∈ l := by
  induction l with
  | nil => simp [insertByDesc]
  | cons y t ih =>
    simp only [insertByDesc]
    split
    · simp
    · simp [ih]
      tauto

theorem mem_sortByDesc_aux {α : Type} (key : α → ℚ) (l : List α) :
    ∀ (acc : List α) (x : α),
      x ∈ l.foldl (fun a e => insertByDesc key e a) acc ↔ x ∈ acc ∨ x ∈ l := by
  induction l with
  | nil => simp
  | cons y t ih =>
    intro acc x
    simp only [List.foldl_cons, ih, mem_insertByDesc]
    simp
    tauto

theorem mem_sortByDesc {α : Type} (key : α → ℚ) (l : List α) (x : α) :
    x ∈ sortByDesc key l ↔ x ∈ l := by
  simp [sortByDesc, mem_sortByDesc_aux]

theorem pairwise_insertByDesc {α : Type} (key : α → ℚ) (d : α) {l : List α}
    (h : List.Pairwise (fun a b => key b ≤ key a) l) :
    List.Pairwise (fun a b => key b ≤ key a) (insertByDesc key d l) := by
  induction l with
  | nil => simp [insertByDesc]
  | cons y t ih =>
    rw [List.pairwise_cons] at h
    simp only [insertByDesc]
    split
    · rename_i hlt
      refine List.pairwise_cons.2 ⟨?_, List.pairwise_cons.2 h⟩
      intro z hz
      rcases List.mem_cons.1 hz with hz | hz
      · exact hz ▸ le_of_lt hlt
      · exact le_trans (h.1 z hz) (le_of_lt hlt)
    · rename_i hge
      refine List.pairwise_cons.2 ⟨?_, ih h.2⟩
      intro z hz
      rcases (mem_insertByDesc key d z t).1 hz with hz | hz
      · exact hz ▸ le_of_not_lt hge
      · exact h.1 z hz

theorem pairwise_sortByDesc_aux {α : Type} (key : α → ℚ) (l : List α) :
    ∀ acc : List α, List.Pairwise (fun a b => key b ≤ key a) acc →
      List.Pairwise (fun a b => key b ≤ key a)
        (l.foldl (fun a e => insertByDesc key e a) acc) := by
  induction l with
  | nil => exact fun acc h => h
  | cons y t ih =>
    intro acc h
    exact ih _ (pairwise_insertByDesc key y h)

theorem pairwise_sortByDesc {α : Type} (key : α → ℚ) (l : List α) :
    List.Pairwise (fun a b => key b ≤ key a) (sortByDesc key l) :=
  pairwise_sortByDesc_aux key l [] (List.Pairwise.nil)

/-! Lemmas about symptom deduplication. -/

theorem dedupBySymptom_sublist :
    ∀ (l : List SymptomMatch) (seen : List (List Char)),
      (dedupBySymptom l seen).Sublist l := by
  intro l
  induction l with
  | nil => intro seen; simp [dedupBySymptom]
  | cons x t ih =>
    intro seen
    simp only [dedupBySymptom]
    split
    · exact (ih seen).cons x
    · exact (ih (x.symptom :: seen)).cons₂ x

theorem mem_dedupBySymptom_not_seen :
    ∀ {l : List SymptomMatch} {seen : List (List Char)} {m : SymptomMatch},
      m ∈ dedupBySymptom l seen → m.symptom ∉ seen := by
  intro l
  induction l with
  | nil => intro seen m hm; simp [dedupBySymptom] at hm
  | cons x t ih =>
    intro seen m hm
    simp only [dedupBySymptom] at hm
    by_cases hx : x.symptom ∈ seen
    · rw [if_pos hx] at hm
      exact ih hm
    · rw [if_neg hx] at hm
      rcases List.mem_cons.1 hm with hm | hm
      · subst hm
        exact hx
      · intro hmem
        exact ih hm (List.mem_cons_of_mem _ hmem)

theorem dedupBySymptom_pairwise_ne :
    ∀ (l : List SymptomMatch) (seen : List (List Char)),
      List.Pairwise (fun a b => a.symptom ≠ b.symptom)
        (dedupBySymptom l seen) := by
  intro l
  induction l with
  | nil => intro seen; simp [dedupBySymptom]
  | cons x t ih =>
    intro seen
    simp only [dedupBySymptom]
    split
    · exact ih seen
    · refine List.pairwise_cons.2 ⟨?_, ih _⟩
      intro b hb
      have := mem_dedupBySymptom_not_seen hb
      intro hx
      exact this (hx ▸ List.mem_cons_self _ _)

theorem dedupBySymptom_weight_max :
    ∀ {l : List SymptomMatch} {seen : List (List Char)} {m : SymptomMatch},
      List.Pairwise (fun a b => b.weight ≤ a.weight) l →
      m ∈ dedupBySymptom l seen →
      ∀ c ∈ l, c.symptom = m.symptom → c.weight ≤ m.weight := by
  intro l
  induction l with
  | nil => intro seen m _ hm; simp [dedupBySymptom] at hm
  | cons x t ih =>
    intro seen m hp hm
    rw [List.pairwise_cons] at hp
    simp only [dedupBySymptom] at hm
    by_cases hx : x.symptom ∈ seen
    · rw [if_pos hx] at hm
      intro c hc hcs
      rcases List.mem_cons.1 hc with hc | hc
      · exfalso
        subst hc
        exact mem_dedupBySymptom_not_seen hm (hcs ▸ hx)
      · exact ih hp.2 hm c hc hcs
    · rw [if_neg hx] at hm
      rcases List.mem_cons.1 hm with hm | hm
      · subst hm
        intro c hc _
        rcases List.mem_cons.1 hc with hc | hc
        · subst hc
          exact le_refl _
        · exact hp.1 c hc
      · have hne : m.symptom ≠ x.symptom := by
          intro h
          refine mem_dedupBySymptom_not_seen hm ?_
          rw [h]
          exact List.mem_cons_self _ _
        intro c hc hcs
        rcases List.mem_cons.1 hc with hc | hc
        · exfalso
          subst hc
          exact hne hcs.symm
        · exact ih hp.2 hm c hc hcs

/-! Weight bounds of the extraction passes. -/

theorem extractCandidates_weight_bounds
    {plants : List PlantRecord} {text : List Char} {plant : PlantRecord}
    {m : SymptomMatch} (hm : m ∈ extractCandidates plants text plant) :
    0.2 < m.weight ∧ m.weight ≤ 1 := by
  unfold extractCandidates at hm
  rw [List.mem_filterMap] at hm
  obtain ⟨sym, _, heq⟩ := hm
  dsimp only at heq
  split at heq
  · split at heq
    · rw [Option.some.injEq] at heq
      subst heq
      refine ⟨?_, ?_⟩
      · rw [min_self]
        norm_num
      · rw [min_self]
        norm_num
    · exact absurd heq (by simp)
  · split at heq
    · rename_i hgt
      rw [Option.some.injEq] at heq
      subst heq
      dsimp only
      constructor
      · exact lt_min hgt (by norm_num)
      · exact le_trans (min_le_right _ _) (by norm_num)
    · exact absurd heq (by simp)

theorem mem_extractSymptoms_mem_candidates
    {plants : List PlantRecord} {text : List Char} {plant : PlantRecord}
    {m : SymptomMatch} (hm : m ∈ extractSymptoms plants text plant) :
    m ∈ extractCandidates plants text plant := by
  unfold extractSymptoms at hm
  have h1 := List.mem_of_mem_take hm
  have h2 := (dedupBySymptom_sublist _ _).subset h1
  exact (mem_sortByDesc _ _ _).1 h2

theorem enhancedSymptomDetection_weight_le
    {text : List Char} {plant : PlantRecord} {m : SymptomMatch}
    (hm : m ∈ enhancedSymptomDetection text plant) : m.weight ≤ 1 := by
  unfold enhancedSymptomDetection at hm
  rw [List.mem_filterMap] at hm
  obtain ⟨sym, _, heq⟩ := hm
  dsimp only at heq
  split at heq
  · rw [Option.some.injEq] at heq
    subst heq
    norm_num
  · split at heq
    · rw [Option.some.injEq] at heq
      subst heq
      norm_num
    · exact absurd heq (by simp)

/-- the spec formula for the average symptom score, written from the words
of spec section 4.3 step 4: `avgSymptomScore(S) = 0` if `S` is empty, else
`sum(weight in S) / max(|S|, 3)` — notably without the clamp to `1.0` that
`calculateSymptomScore` performs, a clamp that never fires on extraction
outputs because every extracted weight is at most `1`. -/
def specAvgSymptomScore (S : List SymptomMatch) : ℚ :=
  if S.isEmpty then 0
  else (S.map (fun s => s.weight)).sum / ((max S.length 3 : ℕ) : ℚ)

theorem sum_map_weight_le_length {S : List SymptomMatch}
    (h : ∀ m ∈ S, m.weight ≤ 1) :
    (S.map (fun s => s.weight)).sum ≤ (S.length : ℚ) := by
  induction S with
  | nil => simp
  | cons a t ih =>
    simp only [List.map_cons, List.sum_cons, List.length_cons]
    push_cast
    have ha := h a (List.mem_cons_self a t)
    have ht := ih (fun m hm => h m (List.mem_cons_of_mem a hm))
    linarith

theorem calculateSymptomScore_eq_spec {S : List SymptomMatch}
    (h : ∀ m ∈ S, m.weight ≤ 1) :
    calculateSymptomScore S = specAvgSymptomScore S := by
  cases S with
  | nil => simp [calculateSymptomScore, specAvgSymptomScore]
  | cons a t =>
    have hpos : (0 : ℚ) < ((max (a :: t).length 3 : ℕ) : ℚ) := by
      have h3 : 0 < max (a :: t).length 3 :=
        lt_of_lt_of_le (by norm_num) (le_max_right _ _)
      exact_mod_cast h3
    have hle : ((a :: t).map (fun s => s.weight)).sum
        ≤ ((max (a :: t).length 3 : ℕ) : ℚ) := by
      refine le_trans (sum_map_weight_le_length h) ?_
      exact_mod_cast le_max_left (a :: t).length 3
    unfold calculateSymptomScore specAvgSymptomScore
    rw [if_neg (by simp), if_neg (by simp)]
    have h10 : (1.0 : ℚ) = 1 := by norm_num
    rw [h10]
    exact min_eq_left ((div_le_one hpos).2 hle)

/-- claim C6: symptom extraction returns at most 10 entries, sorted by
weight in non-increasing order, with pairwise distinct symptom texts,
every weight strictly above `0.2` and at most `1`, and every kept entry
bearing the maximal weight among all scored candidates with the same
symptom text (the highest-weight occurrence is the one kept). -/
theorem extractSymptoms_contract (plants : List PlantRecord)
    (text : List Char) (plant : PlantRecord) :
    (extractSymptoms plants text plant).length ≤ 10
    ∧ List.Pairwise (fun a b => b.weight ≤ a.weight)
        (extractSymptoms plants text plant)
    ∧ List.Pairwise (fun a b => a.symptom ≠ b.symptom)
        (extractSymptoms plants text plant)
    ∧ (∀ m ∈ extractSymptoms plants text plant,
        0.2 < m.weight ∧ m.weight ≤ 1)
    ∧ (∀ m ∈ extractSymptoms plants text plant,
        ∀ c ∈ extractCandidates plants text plant,
          c.symptom = m.symptom → c.weight ≤ m.weight) := by
  refine ⟨?_, ?_, ?_, ?_, ?_⟩
  · unfold extractSymptoms
    rw [List.length_take]
    exact min_le_left _ _
  · exact List.Pairwise.sublist (List.take_sublist _ _)
      (List.Pairwise.sublist (dedupBySymptom_sublist _ _)
        (pairwise_sortByDesc _ _))
  · exact List.Pairwise.sublist (List.take_sublist _ _)
      (dedupBySymptom_pairwise_ne _ _)
  · intro m hm
    exact extractCandidates_weight_bounds
      (mem_extractSymptoms_mem_candidates hm)
  · intro m hm c hc hcs
    unfold extractSymptoms at hm
    exact dedupBySymptom_weight_max (pairwise_sortByDesc _ _)
      (List.mem_of_mem_take hm) c ((mem_sortByDesc _ _ _).2 hc) hcs

/-- claim C4: on the ordinary scoring path the computed confidence equals
`max(0.3, min(1.0, plantMatchWeight * (|allMatches| / max(|causeKeywords|, 1))
+ symptomMatchWeight * (avg(symptoms) + avg(enhancedSymptoms)) / 2))` with
`avg` the clamp-free average of the spec — the code's inner clamp of each
average to `1.0` never fires because extraction and enhanced detection only
emit weights at most `1`. -/
theorem calculateEnhancedConfidence_spec_formula (cfg : Config)
    (plants : List PlantRecord) (text : List Char) (plant : PlantRecord)
    (allMatches : List (List Char)) (totalKeywords : ℕ) :
    calculateEnhancedConfidence cfg allMatches totalKeywords
      (extractSymptoms plants text plant)
      (enhancedSymptomDetection (lowerStr text) plant)
    = max 0.3 (min 1.0
        (cfg.plantMatchWeight
            * ((allMatches.length : ℚ) / ((max totalKeywords 1 : ℕ) : ℚ))
          + cfg.symptomMatchWeight
            * (specAvgSymptomScore (extractSymptoms plants text plant)
              + specAvgSymptomScore
                  (enhancedSymptomDetection (lowerStr text) plant)) / 2)) := by
  have h1 : ∀ m ∈ extractSymptoms plants text plant, m.weight ≤ 1 :=
    fun m hm => (extractCandidates_weight_bounds
      (mem_extractSymptoms_mem_candidates hm)).2
  have h2 : ∀ m ∈ enhancedSymptomDetection (lowerStr text) plant,
      m.weight ≤ 1 :=
    fun m hm => enhancedSymptomDetection_weight_le hm
  simp only [calculateEnhancedConfidence]
  rw [calculateSymptomScore_eq_spec h1, calculateSymptomScore_eq_spec h2]
  rw [max_comm, min_comm]

/-- the per-(word, word) pair count of the partial matching loops: each
symptom word of length `> 2` contributes once for EVERY input word it
contains or is contained in. -/
def pairCnt (text symptomLower : List Char) : ℕ :=
  ((splitSp symptomLower).map (fun sw =>
    if sw.length > 2 then
      ((splitSp text).filter (fun iw =>
        strIncludes iw sw || strIncludes sw iw)).length
    else 0)).sum

/-- the count of symptom words of length `> 3` occurring in the full
text. -/
def substrCnt (text symptomLower : List Char) : ℕ :=
  ((splitSp symptomLower).filter (fun sw =>
    sw.length > 3 && strIncludes text sw)).length

/-- Modelled from the spec: the accumulated weight formula of spec section
4.2, which counts `+0.3` once per symptom-word (of length > 2) that matches
SOME input word — a per-word count, not a per-pair count. -/
def specMatchScore (text symptomLower : List Char) : ℚ :=
  0.3 * (((splitSp symptomLower).filter (fun sw =>
      sw.length > 2 && (splitSp text).any (fun iw =>
        strIncludes iw sw || strIncludes sw iw))).length : ℚ)
    + 0.5 * ((substrCnt text symptomLower : ℕ) : ℚ)
    + 0.4 * (getSemanticMatches symptomLower text : ℚ)

theorem foldl_if_add {α : Type} (p : α → Bool) (c : ℚ) :
    ∀ (l : List α) (a : ℚ),
      l.foldl (fun acc x => if p x then acc + c else acc) a
        = a + c * ((l.filter p).length : ℚ) := by
  intro l
  induction l with
  | nil => intro a; simp
  | cons x t ih =>
    intro a
    simp only [List.foldl_cons]
    by_cases hx : p x = true
    · rw [if_pos hx, ih, List.filter_cons_of_pos hx]
      push_cast [List.length_cons]
      ring
    · rw [if_neg hx, ih, List.filter_cons_of_neg (by simpa using hx)]

theorem partPairScore_eq (iws : List (List Char)) :
    ∀ (sws : List (List Char)) (a : ℚ),
      sws.foldl (fun acc sw =>
        if sw.length > 2 then
          iws.foldl (fun acc2 iw =>
            if strIncludes iw sw || strIncludes sw iw then acc2 + 0.3
            else acc2) acc
        else acc) a
      = a + 0.3 * (((sws.map (fun sw =>
          if sw.length > 2 then
            ((iws.filter (fun iw =>
              strIncludes iw sw || strIncludes sw iw)).length)
          else 0)).sum : ℕ) : ℚ) := by
  intro sws
  induction sws with
  | nil => intro a; simp
  | cons sw t ih =>
    intro a
    simp only [List.foldl_cons, List.map_cons, List.sum_cons]
    by_cases hsw : sw.length > 2
    · rw [if_pos hsw, if_pos hsw, ih,
        foldl_if_add (fun iw => strIncludes iw sw || strIncludes sw iw) 0.3]
      push_cast
      ring
    · rw [if_neg hsw, if_neg hsw, ih]
      push_cast
      ring

/-- claim C5 (amended): the accumulated non-exact match weight equals
`0.3` per matching (symptom-word, input-word) PAIR — a symptom word
matching several input words contributes `0.3` for each of them — plus
`0.5` per symptom-word of length > 3 contained in the text, plus `0.4`
per matching semantic group. -/
theorem rawMatchScore_closed_form (text symptomLower : List Char) :
    rawMatchScore text symptomLower
      = 0.3 * ((pairCnt text symptomLower : ℕ) : ℚ)
        + 0.5 * ((substrCnt text symptomLower : ℕ) : ℚ)
        + 0.4 * (getSemanticMatches symptomLower text : ℚ) := by
  unfold rawMatchScore partPairScore substrScore pairCnt substrCnt
  rw [partPairScore_eq (splitSp text) (splitSp symptomLower) 0,
    foldl_if_add (fun sw => sw.length > 3 && strIncludes text sw) 0.5
      (splitSp symptomLower) 0]
  ring

/-- counterexample to claim C5 as stated: for the input `dry dryish` and
the candidate symptom `dry soil` (whose full phrase is not a substring of
the input), the symptom word `dry` matches BOTH input words, so the code
accumulates `0.3 + 0.3 + 0.4 = 1.0` while the per-word formula of the
claim yields `0.3 + 0.4 = 0.7`. -/
theorem rawMatchScore_pair_counterexample :
    strIncludes (lowerStr "dry dryish".data) (lowerStr "dry soil".data) = false
    ∧ rawMatchScore (lowerStr "dry dryish".data) (lowerStr "dry soil".data) = 1
    ∧ specMatchScore (lowerStr "dry dryish".data) (lowerStr "dry soil".data)
        = 0.7
    ∧ ((1 : ℚ) ≠ 0.7) := by
  refine ⟨by decide, ?_, ?_, by norm_num⟩
  · norm_num +decide [rawMatchScore, partPairScore, substrScore, splitSp,
      splitSpAux, lowerStr, getSemanticMatches, semanticGroups, List.foldl]
  · norm_num +decide [specMatchScore, substrCnt, splitSp, splitSpAux,
      lowerStr, getSemanticMatches, semanticGroups]

/-- claim C7: when some catalog plant's full lower-cased name occurs
verbatim in the input (every name word equal to, or a substring of, some
input word), `detectPlant` answers from the exact-name stage: the first
satisfying plant in catalog order, method `plant_name_match`, score `1.0`;
the alias, fuzzy and generic-fallback stages are not consulted. -/
theorem detectPlant_name_match (e : Engine) (text : List Char)
    (p : PlantRecord) (hmem : p ∈ e.plants)
    (hcond : nameCond (splitWs (lowerStr text)) p = true) :
    ∃ q ∈ e.plants,
      e.plants.find? (nameCond (splitWs (lowerStr text))) = some q
      ∧ nameCond (splitWs (lowerStr text)) q = true
      ∧ detectPlant e text =
          { plant := q, score := 1.0, method := "plant_name_match".data } := by
  have hsome : (e.plants.find? (nameCond (splitWs (lowerStr text)))).isSome :=
    List.find?_isSome.2 ⟨p, hmem, hcond⟩
  obtain ⟨q, hq⟩ := Option.isSome_iff_exists.1 hsome
  refine ⟨q, List.mem_of_find?_eq_some hq, hq, List.find?_some hq, ?_⟩
  simp [detectPlant, hq]

/-- a second catalog plant used by the C7 witness. -/
def wSnake : PlantRecord :=
  { id := "snake_plant".data, name := "Snake Plant".data, aliases := [],
    symptoms := [], causes := [], solutions := [], eco_tip := [] }

/-- an engine whose catalog holds `wSnake` before the generic record. -/
def wEngine2 : Engine :=
  { plants := [wSnake, wPlant], config := defaultConfig, fuse := fun _ => [] }

/-- witness for C7: the input `my snake plant droops` contains the name
`Snake Plant` verbatim. -/
theorem detectPlant_name_match_witness :
    ∃ q ∈ wEngine2.plants,
      wEngine2.plants.find?
          (nameCond (splitWs (lowerStr "my snake plant droops".data)))
        = some q
      ∧ nameCond (splitWs (lowerStr "my snake plant droops".data)) q = true
      ∧ detectPlant wEngine2 "my snake plant droops".data =
          { plant := q, score := 1.0, method := "plant_name_match".data } :=
  detectPlant_name_match wEngine2 "my snake plant droops".data wSnake
    (by decide) (by decide)

/-- claim C8: when the ordinary symptom list and the enhanced symptom list
are both empty, `generateDiagnoses` skips all cause scoring and returns
exactly the fixed unclear-symptoms diagnosis of confidence `0.2`. -/
theorem generateDiagnoses_no_symptoms (cfg : Config) (plant : PlantRecord)
    (text : List Char)
    (h : enhancedSymptomDetection (lowerStr text) plant = []) :
    generateDiagnoses cfg plant [] text = [unclearDiagnosis]
    ∧ unclearDiagnosis.confidence = 0.2
    ∧ unclearDiagnosis.cause.id = "no_symptoms".data := by
  refine ⟨?_, rfl, rfl⟩
  simp [generateDiagnoses, h]

/-- witness for C8: a plant with no symptom list yields the sentinel on the
input `hello`. -/
theorem generateDiagnoses_no_symptoms_witness :
    generateDiagnoses defaultConfig wPlant [] "hello".data =
      [unclearDiagnosis] :=
  (generateDiagnoses_no_symptoms defaultConfig wPlant "hello".data rfl).1

/-! Confidence bounds of the cause-scoring path (claims C1 and C2). -/

theorem calculateEnhancedConfidence_le_one (cfg : Config)
    (matched : List (List Char)) (tk : ℕ) (s e : List SymptomMatch) :
    calculateEnhancedConfidence cfg matched tk s e ≤ 1 := by
  unfold calculateEnhancedConfidence
  refine max_le (le_trans (min_le_right _ _) (by norm_num)) (by norm_num)

theorem diagnosisFor_some_bounds {cfg : Config} {plant : PlantRecord}
    {symptoms enhancedSymptoms : List SymptomMatch}
    {inputLower inputText : List Char} {cause : Cause} {d : Diagnosis}
    (h : diagnosisFor cfg plant symptoms enhancedSymptoms inputLower
      inputText cause = some d) :
    cfg.minConfidenceThreshold ≤ d.confidence ∧ d.confidence ≤ 1 := by
  simp only [diagnosisFor] at h
  split at h
  · split at h
    · rename_i hth
      rw [Option.some.injEq] at h
      subst h
      exact ⟨hth, calculateEnhancedConfidence_le_one _ _ _ _ _⟩
    · exact absurd h (by simp)
  · exact absurd h (by simp)

theorem generateDiagnoses_mem {cfg : Config} {plant : PlantRecord}
    {symptoms : List SymptomMatch} {inputText : List Char} {d : Diagnosis}
    (hd : d ∈ generateDiagnoses cfg plant symptoms inputText) :
    (cfg.minConfidenceThreshold ≤ d.confidence ∧ d.confidence ≤ 1)
    ∨ (d.confidence = 0.2 ∧ d.cause.id = "no_symptoms".data)
    ∨ d.confidence = 0.4 := by
  simp only [generateDiagnoses] at hd
  split at hd
  · rw [List.mem_singleton] at hd
    subst hd
    exact Or.inr (Or.inl ⟨rfl, rfl⟩)
  · have hd2 := (mem_sortByDesc _ _ _).1 (List.mem_of_mem_take hd)
    split at hd2
    · split at hd2
      · rw [List.mem_singleton] at hd2
        subst hd2
        exact Or.inr (Or.inr rfl)
      · rw [List.mem_filterMap] at hd2
        obtain ⟨cause, _, hc⟩ := hd2
        exact Or.inl (diagnosisFor_some_bounds hc)
    · rw [List.mem_filterMap] at hd2
      obtain ⟨cause, _, hc⟩ := hd2
      exact Or.inl (diagnosisFor_some_bounds hc)

theorem generateDiagnoses_length (cfg : Config) (plant : PlantRecord)
    (symptoms : List SymptomMatch) (inputText : List Char) :
    (generateDiagnoses cfg plant symptoms inputText).length
      ≤ max cfg.maxDiagnoses 1 := by
  simp only [generateDiagnoses]
  split
  · simp
  · rw [List.length_take]
    exact le_trans (min_le_left _ _) (le_max_left _ _)

/-- claim C1 (amended): for every input, engine state and configuration,
the diagnoses list has length at most `max(maxDiagnoses, 1)` (the sentinel
lists of length 1 are returned without truncation), and every confidence
lies in `[minConfidenceThreshold, 1]` except the fixed confidence-0
empty-input sentinel, the fixed confidence-0.2 no-symptom sentinel, and
the fixed confidence-0.4 last-resort pattern diagnosis (which is pushed
without a threshold test). -/
theorem diagnose_confidence_bounds (e : Engine) (now s : List Char) :
    (diagnose e now s).diagnoses.length ≤ max e.config.maxDiagnoses 1
    ∧ ∀ d ∈ (diagnose e now s).diagnoses,
        (e.config.minConfidenceThreshold ≤ d.confidence ∧ d.confidence ≤ 1)
        ∨ (d.confidence = 0 ∧ d.cause.id = "empty_input".data)
        ∨ (d.confidence = 0.2 ∧ d.cause.id = "no_symptoms".data)
        ∨ d.confidence = 0.4 := by
  by_cases h : (jsTrim s).isEmpty = true
  · constructor
    · simp [diagnose, h]
    · intro d hd
      simp only [diagnose, if_pos h, List.mem_singleton] at hd
      subst hd
      exact Or.inr (Or.inl ⟨rfl, rfl⟩)
  · constructor
    · simp only [diagnose, if_neg h]
      exact generateDiagnoses_length _ _ _ _
    · intro d hd
      simp only [diagnose, if_neg h] at hd
      rcases generateDiagnoses_mem hd with h1 | h2 | h3
      · exact Or.inl h1
      · exact Or.inr (Or.inr (Or.inl h2))
      · exact Or.inr (Or.inr (Or.inr h3))

/-! Fixtures for the C1 and C2 counterexamples and witnesses: small
catalogs whose generic record exercises the uncovered paths. -/

/-- a cause whose keyword never matches the probe inputs. -/
def cOver : Cause :=
  { id := "overwatering".data, label := "Overwatering".data,
    keywords := ["soggy".data] }

/-- a generic record with one symptom and one unmatched cause. -/
def pDry : PlantRecord :=
  { id := "generic".data, name := "generic".data, aliases := [],
    symptoms := ["dry leaves".data], causes := [cOver], solutions := [],
    eco_tip := [] }

/-- an engine with a raised confidence threshold of `0.5`. -/
def eC1 : Engine :=
  { plants := [pDry],
    config := { defaultConfig with minConfidenceThreshold := 0.5 },
    fuse := fun _ => [] }

/-- an engine configured with `maxDiagnoses = 0`. -/
def eC1b : Engine :=
  { plants := [wPlant],
    config := { defaultConfig with maxDiagnoses := 0 },
    fuse := fun _ => [] }

/-- the synthetic underwatering cause built by `detectGenericCause`. -/
def gcUnder : Cause :=
  { id := "underwatering".data, label := "Underwatering & Dehydration".data,
    keywords := ["dry".data, "crispy".data, "brown".data, "wilting".data,
      "drooping".data, "thirsty".data] }

/-- the symptom match extracted from the input `dry` against `pDry`. -/
def mDry : SymptomMatch :=
  { symptom := "dry leaves".data, source := "plant_specific".data,
    weight := 0.7, matchType := "semantic".data }

set_option maxHeartbeats 1600000 in
/-- counterexample to claim C1 as stated: with threshold `0.5` the input
`dry` yields the last-resort diagnosis of confidence `0.4`, below the
configured minimum and not one of the two excepted sentinels; and with
`maxDiagnoses = 0` the no-symptom sentinel list still has length `1`. -/
theorem diagnose_bounds_counterexample :
    ((diagnose eC1 [] "dry".data).diagnoses.map (fun d => d.confidence)
        = [0.4]
      ∧ (diagnose eC1 [] "dry".data).diagnoses.map (fun d => d.cause.id)
          = ["underwatering".data]
      ∧ ¬ ((0.4 : ℚ) ≥ eC1.config.minConfidenceThreshold))
    ∧ ((diagnose eC1b [] "hello".data).diagnoses.length = 1
      ∧ eC1b.config.maxDiagnoses = 0) := by
  have hdet : detectPlant eC1 "dry".data
      = { plant := pDry, score := 0.1, method := "generic_fallback".data } :=
    rfl
  have hex : extractSymptoms eC1.plants "dry".data pDry = [mDry] := by
    norm_num +decide [extractSymptoms, extractCandidates, rawMatchScore,
      partPairScore, substrScore, getSemanticMatches, semanticGroups,
      matchTypeOf, sortByDesc, insertByDesc, dedupBySymptom, lowerStr,
      splitSp, splitSpAux, strIncludes, isPrefOf, genericRecord, eC1, pDry,
      mDry, min_def, List.filterMap, List.foldl]
  have hgen : generateDiagnoses eC1.config pDry [mDry] "dry".data
      = [lastResortDiagnosis pDry (lowerStr "dry".data) gcUnder] := by
    norm_num +decide [generateDiagnoses, enhancedSymptomDetection,
      diagnosisFor, calculateEnhancedConfidence, calculateSymptomScore,
      dedupFirst, dedupFirstAux, detectGenericCause, lastResortPatterns,
      getCauseLabel, lastResortDiagnosis, generateGenericWhyExplanation,
      actionsFor, lookupSol, genericFallbackActions, joinSep, lowerStr,
      splitSp, splitSpAux, strIncludes, isPrefOf, sortByDesc, insertByDesc,
      eC1, pDry, cOver, defaultConfig, gcUnder, mDry, min_def, max_def,
      List.filterMap, List.filter, List.find?, List.take]
  have key : (diagnose eC1 [] "dry".data).diagnoses
      = generateDiagnoses eC1.config pDry
          (extractSymptoms eC1.plants "dry".data pDry) "dry".data := rfl
  have hdetb : detectPlant eC1b "hello".data
      = { plant := wPlant, score := 0.1, method := "generic_fallback".data } :=
    rfl
  have hexb : extractSymptoms eC1b.plants "hello".data wPlant = [] := rfl
  have hgenb : generateDiagnoses eC1b.config wPlant [] "hello".data
      = [unclearDiagnosis] := rfl
  have keyb : (diagnose eC1b [] "hello".data).diagnoses
      = generateDiagnoses eC1b.config wPlant
          (extractSymptoms eC1b.plants "hello".data wPlant) "hello".data :=
    rfl
  refine ⟨⟨?_, ?_, by norm_num [eC1, defaultConfig]⟩, ?_, rfl⟩
  · rw [key, hex, hgen]
    norm_num [lastResortDiagnosis]
  · rw [key, hex, hgen]
    simp [lastResortDiagnosis, gcUnder]
  · rw [keyb, hexb, hgenb]
    rfl

/-- a generic record whose only symptom matches the probe input while no
cause and no last-resort keyword does. -/
def pSticky : PlantRecord :=
  { id := "generic".data, name := "generic".data, aliases := [],
    symptoms := ["sticky residue".data], causes := [], solutions := [],
    eco_tip := [] }

/-- an engine whose catalog holds only `pSticky`. -/
def eC2 : Engine :=
  { plants := [pSticky], config := defaultConfig, fuse := fun _ => [] }

/-- the symptom match extracted from the input `sticky` against
`pSticky`. -/
def mStickyRes : SymptomMatch :=
  { symptom := "sticky residue".data, source := "plant_specific".data,
    weight := 1, matchType := "semantic".data }

set_option maxHeartbeats 1600000 in
/-- counterexample to claim C2 as stated: on the input `sticky` a symptom
is extracted (so the no-symptom sentinel is skipped), no cause is accepted
(the cause list is empty), and no last-resort pattern keyword occurs, so
`diagnose` returns an EMPTY diagnoses list. -/
theorem diagnose_empty_diagnoses_counterexample :
    (diagnose eC2 [] "sticky".data).diagnoses = [] := by
  have hdet : detectPlant eC2 "sticky".data
      = { plant := pSticky, score := 0.1,
          method := "generic_fallback".data } := rfl
  have hex : extractSymptoms eC2.plants "sticky".data pSticky
      = [mStickyRes] := by
    norm_num +decide [extractSymptoms, extractCandidates, rawMatchScore,
      partPairScore, substrScore, getSemanticMatches, semanticGroups,
      matchTypeOf, sortByDesc, insertByDesc, dedupBySymptom, lowerStr,
      splitSp, splitSpAux, strIncludes, isPrefOf, genericRecord, eC2,
      pSticky, mStickyRes, min_def, List.filterMap, List.foldl]
  have hgen : generateDiagnoses eC2.config pSticky [mStickyRes]
      "sticky".data = [] := rfl
  have key : (diagnose eC2 [] "sticky".data).diagnoses
      = generateDiagnoses eC2.config pSticky
          (extractSymptoms eC2.plants "sticky".data pSticky)
          "sticky".data := rfl
  rw [key, hex, hgen]

/-- claim C2 (amended): when the per-cause loop accepts no diagnosis the
result is the unclear-symptoms sentinel if both symptom lists are empty;
otherwise the single 0.4 last-resort diagnosis if some last-resort keyword
occurs in the input (and `maxDiagnoses` is at least 1); and otherwise the
empty list — the engine CAN answer with no diagnosis at all. -/
theorem generateDiagnoses_empty_characterisation (cfg : Config)
    (plant : PlantRecord) (symptoms : List SymptomMatch)
    (inputText : List Char) :
    (symptoms = [] →
      enhancedSymptomDetection (lowerStr inputText) plant = [] →
      generateDiagnoses cfg plant symptoms inputText = [unclearDiagnosis])
    ∧ (∀ gc : Cause,
        (symptoms.isEmpty
          && (enhancedSymptomDetection (lowerStr inputText) plant).isEmpty)
            = false →
        plant.causes.filterMap (diagnosisFor cfg plant symptoms
          (enhancedSymptomDetection (lowerStr inputText) plant)
          (lowerStr inputText) inputText) = [] →
        detectGenericCause (lowerStr inputText) plant = some gc →
        1 ≤ cfg.maxDiagnoses →
        generateDiagnoses cfg plant symptoms inputText
          = [lastResortDiagnosis plant (lowerStr inputText) gc])
    ∧ ((symptoms.isEmpty
          && (enhancedSymptomDetection (lowerStr inputText) plant).isEmpty)
            = false →
        plant.causes.filterMap (diagnosisFor cfg plant symptoms
          (enhancedSymptomDetection (lowerStr inputText) plant)
          (lowerStr inputText) inputText) = [] →
        detectGenericCause (lowerStr inputText) plant = none →
        generateDiagnoses cfg plant symptoms inputText = []) := by
  refine ⟨?_, ?_, ?_⟩
  · intro h1 h2
    simp [generateDiagnoses, h1, h2]
  · intro gc hne hbase hgc hmax
    simp only [generateDiagnoses, hne, Bool.false_eq_true, if_false, hbase,
      List.isEmpty_nil, if_true, hgc]
    obtain ⟨n, hn⟩ : ∃ n, cfg.maxDiagnoses = n + 1 :=
      ⟨cfg.maxDiagnoses - 1, by omega⟩
    simp [sortByDesc, insertByDesc, hn]
  · intro hne hbase hgc
    simp [generateDiagnoses, hne, hbase, hgc, sortByDesc]

/-- a generic record with a symptom but no causes, for the C2 witness. -/
def pC2w : PlantRecord :=
  { id := "generic".data, name := "generic".data, aliases := [],
    symptoms := ["dry leaves".data], causes := [], solutions := [],
    eco_tip := [] }

/-- an extracted symptom match used by the C2 witness. -/
def mSticky : SymptomMatch :=
  { symptom := "sticky residue".data, source := "generic".data,
    weight := 1, matchType := "exact".data }

/-- witness for C2 (amended), hitting all three branches: the sentinel, the
last-resort diagnosis, and the empty list. -/
theorem generateDiagnoses_empty_characterisation_witness :
    generateDiagnoses defaultConfig wPlant [] "hello".data = [unclearDiagnosis]
    ∧ generateDiagnoses defaultConfig pC2w [] "dry".data
        = [lastResortDiagnosis pC2w (lowerStr "dry".data) gcUnder]
    ∧ generateDiagnoses defaultConfig pSticky [mSticky] "sticky".data = [] :=
  ⟨(generateDiagnoses_empty_characterisation defaultConfig wPlant []
      "hello".data).1 rfl rfl,
   (generateDiagnoses_empty_characterisation defaultConfig pC2w []
      "dry".data).2.1 gcUnder (by decide) rfl (by decide) (by decide),
   (generateDiagnoses_empty_characterisation defaultConfig pSticky [mSticky]
      "sticky".data).2.2 rfl rfl (by decide)⟩

end PlantHelper
